import Mathlib

/-
Verification development for the CourseGen generation-and-validation pipeline.

The definitions below are a shallow embedding of the JavaScript source:
  * services/aiService.js   — response-text extraction, JSON cleaning/parsing,
                              structural validation, topic suggestions
  * controllers/courseController.js (generateCourse) — content hierarchy builder
  * controllers/lessonController.js (getLesson, updateLesson) — lazy enrichment
  * models/Lesson.js        — the pre-save readingTime hook

JavaScript strings are modelled as Lean String / List Char; `undefined`-or-value
fields are modelled as Option; JS falsy-or-default idioms (x || d) are modelled
explicitly on Option values.  External calls (the generative model, the
persistence engine) are modelled by passing their outcome in as a parameter and
by an explicit store, respectively.
-/


/-! JS string helpers (character-list level, so everything reduces in the kernel) -/

/-- Model of the JS regex split `s.split(/\s+/)` on a character list:
pieces are maximal non-whitespace runs, and a leading/trailing whitespace run
contributes a leading/trailing empty piece, exactly as in JavaScript
(`"".split(/\s+/)` is `[""]`, `" ".split(/\s+/)` is `["",""]`). -/
def jsSplitWsAux : List Char → List Char → Bool → List (List Char)
  | [], acc, _ => [acc.reverse]
  | c :: rest, acc, prevWs =>
    if c.isWhitespace then
      if prevWs then jsSplitWsAux rest [] true
      else acc.reverse :: jsSplitWsAux rest [] true
    else jsSplitWsAux rest (c :: acc) false

/-- Model of `s.split(/\s+/)` for a JS string. -/
def jsSplitWs (s : String) : List (List Char) :=
  jsSplitWsAux s.data [] false

/-- Model of `s.split(/\s+/).length`, the word count used by the lesson schema
pre-save hook. -/
def jsWordCount (s : String) : Nat :=
  (jsSplitWs s).length

/-- Drop leading JS whitespace from a character list. -/
def chDropWs : List Char → List Char
  | [] => []
  | c :: rest => if c.isWhitespace then chDropWs rest else c :: rest

/-- Model of `String.prototype.trim()` (restricted to ASCII whitespace). -/
def chTrim (cs : List Char) : List Char :=
  ((chDropWs cs).reverse |> chDropWs).reverse

/-- Model of `String.prototype.startsWith(p)`. -/
def chStartsWith (cs p : List Char) : Bool :=
  List.isPrefixOf p cs

/-- Model of `String.prototype.endsWith(p)`. -/
def chEndsWith (cs p : List Char) : Bool :=
  List.isPrefixOf p.reverse cs.reverse

/-! JSON values and a model of `JSON.parse`

Numbers are restricted to (signed) integer numerals: every concrete model
response considered below uses integer numbers only.  Objects keep their
members in source order; lookup takes the last binding with a given key,
matching the JS semantics that a later duplicate key overwrites an earlier
one. -/

inductive Json where
  | null : Json
  | bool (b : Bool) : Json
  | num (n : Int) : Json
  | str (s : String) : Json
  | arr (xs : List Json) : Json
  | obj (fields : List (String × Json)) : Json

/-- Last-binding-wins member lookup, i.e. the value JS property access sees. -/
def jsonLookup (fields : List (String × Json)) (name : String) : Option Json :=
  fields.foldl (fun acc kv => if kv.1 = name then some kv.2 else acc) none

/-- Model of JS property access `j[name]` on a parsed value (`none` is
`undefined`: absent member, or access on a non-object). -/
def jsGet (j : Json) (name : String) : Option Json :=
  match j with
  | .obj fs => jsonLookup fs name
  | _ => none

/-- JS truthiness of a parsed JSON value (note: `[]` and the empty object are
truthy in JavaScript). -/
def jsTruthy : Json → Bool
  | .null => false
  | .bool b => b
  | .num n => n != 0
  | .str s => s ≠ ""
  | .arr _ => true
  | .obj _ => true

/-- Truthiness of a field access, `undefined` being falsy. -/
def jsFieldTruthy (j : Json) (name : String) : Bool :=
  match jsGet j name with
  | some v => jsTruthy v
  | none => false

/-- Parse a JSON string body after the opening quote; supports the standard
single-character escapes (the `\uXXXX` form is not modelled). -/
def jsonParseStr : List Char → List Char → Option (String × List Char)
  | [], _ => none
  | '"' :: rest, acc => some (String.mk acc.reverse, rest)
  | '\\' :: e :: rest, acc =>
    match e with
    | '"' => jsonParseStr rest ('"' :: acc)
    | '\\' => jsonParseStr rest ('\\' :: acc)
    | '/' => jsonParseStr rest ('/' :: acc)
    | 'n' => jsonParseStr rest ('\n' :: acc)
    | 't' => jsonParseStr rest ('\t' :: acc)
    | 'r' => jsonParseStr rest ('\r' :: acc)
    | _ => none
  | c :: rest, acc => jsonParseStr rest (c :: acc)

/-- Consume a maximal digit run, accumulating its value. -/
def jsonDigits : List Char → Nat → Nat × List Char
  | [], n => (n, [])
  | c :: rest, n =>
    if c.isDigit then jsonDigits rest (n * 10 + (c.toNat - 48)) else (n, c :: rest)

/-- Parse an integer JSON numeral (optional leading minus, at least one digit). -/
def jsonParseNum : List Char → Option (Int × List Char)
  | '-' :: c :: rest =>
    if c.isDigit then
      let p := jsonDigits rest (c.toNat - 48)
      some (-(p.1 : Int), p.2)
    else none
  | c :: rest =>
    if c.isDigit then
      let p := jsonDigits rest (c.toNat - 48)
      some ((p.1 : Int), p.2)
    else none
  | [] => none

/-- Parser mode: a single value, the tail of an array, or the tail of an
object body. -/
inductive JMode where
  | value : JMode
  | elems (acc : List Json) : JMode
  | members (acc : List (String × Json)) : JMode

/-- Fuel-indexed recursive-descent JSON parser (structural recursion on the
fuel, so concrete runs reduce in the kernel). -/
def jsonParseAux : Nat → JMode → List Char → Option (Json × List Char)
  | 0, _, _ => none
  | fuel + 1, .value, cs =>
    match chDropWs cs with
    | 'n' :: 'u' :: 'l' :: 'l' :: rest => some (.null, rest)
    | 't' :: 'r' :: 'u' :: 'e' :: rest => some (.bool true, rest)
    | 'f' :: 'a' :: 'l' :: 's' :: 'e' :: rest => some (.bool false, rest)
    | '"' :: rest =>
      match jsonParseStr rest [] with
      | some (s, rest2) => some (.str s, rest2)
      | none => none
    | '[' :: rest =>
      (match chDropWs rest with
       | ']' :: rest2 => some (.arr [], rest2)
       | _ => jsonParseAux fuel (.elems []) rest)
    | '\x7b' :: rest =>
      (match chDropWs rest with
       | '\x7d' :: rest2 => some (.obj [], rest2)
       | _ => jsonParseAux fuel (.members []) rest)
    | c :: rest =>
      (match jsonParseNum (c :: rest) with
       | some (n, rest2) => some (.num n, rest2)
       | none => none)
    | [] => none
  | fuel + 1, .elems acc, cs =>
    match jsonParseAux fuel .value cs with
    | some (v, rest) =>
      (match chDropWs rest with
       | ',' :: rest2 => jsonParseAux fuel (.elems (acc ++ [v])) rest2
       | ']' :: rest2 => some (.arr (acc ++ [v]), rest2)
       | _ => none)
    | none => none
  | fuel + 1, .members acc, cs =>
    match chDropWs cs with
    | '"' :: rest =>
      (match jsonParseStr rest [] with
       | some (k, rest2) =>
         (match chDropWs rest2 with
          | ':' :: rest3 =>
            (match jsonParseAux fuel .value rest3 with
             | some (v, rest4) =>
               (match chDropWs rest4 with
                | ',' :: rest5 => jsonParseAux fuel (.members (acc ++ [(k, v)])) rest5
                | '\x7d' :: rest5 => some (.obj (acc ++ [(k, v)]), rest5)
                | _ => none)
             | none => none)
          | _ => none)
       | none => none)
    | _ => none

/-- Model of `JSON.parse(s)`: parse one value and require only whitespace
after it; `none` is a thrown `SyntaxError`. -/
def jsonParse (s : String) : Option Json :=
  match jsonParseAux (2 * s.data.length + 4) .value s.data with
  | some (v, rest) => if chDropWs rest = [] then some v else none
  | none => none

/-! aiService.js — error taxonomy

Each constructor corresponds to one `throw new Error(...)` site in
services/aiService.js and carries exactly the data interpolated into that
site's message string. -/

inductive AIError where
  /-- Error site `Could not extract text from AI response` in `extractText`. -/
  | extractionFailed : AIError
  /-- Error site `AI returned invalid JSON format` in `parseJSONResponse`. -/
  | invalidJson : AIError
  /-- Error site `Course data missing required fields: ...` (the interpolated field list). -/
  | courseMissingFields (fields : List String) : AIError
  /-- Error site `Course must have at least one module`. -/
  | courseNoModules : AIError
  /-- Error site `Module N missing title` (the interpolated index). -/
  | moduleMissingTitle (index : Nat) : AIError
  /-- Error site `Module "..." must have at least one lesson` (the interpolated title). -/
  | moduleNoLessons (title : Json) : AIError
  /-- Error site `Lesson data missing required fields: ...` (the interpolated field list). -/
  | lessonMissingFields (fields : List String) : AIError
  /-- Error site `Lesson must have at least one content block`. -/
  | lessonNoContent : AIError
  /-- Error site `Content block N missing type` (the interpolated block index). -/
  | blockMissingType (index : Nat) : AIError
  /-- Error site `Invalid content block type: ...` (the interpolated `block.type`
  value - the message names the kind but carries no block index). -/
  | invalidBlockType (kind : Json) : AIError
  /-- A rejected external call (network / rate-limit / SDK failure), carrying
  its message. -/
  | transport (msg : String) : AIError

/-! aiService.js — `extractText` -/

/-- The `response.text` member of the model-response envelope: a function, a
string, or absent. -/
inductive RespText where
  | fn (s : String) : RespText
  | str (s : String) : RespText
  | absent : RespText

/-- Model-response envelope as `extractText` probes it.  `candidates` flattens
the `candidates[0].content.parts[0].text` path to the text it yields when the
whole chain is present. -/
structure Envelope where
  text : RespText
  candidates : Option String

/-- Model of `AIService.extractText`: prefer a callable `response.text`, then a
string-valued one, then the nested candidates path, else throw. -/
def extractText (response : Envelope) : Except AIError String :=
  match response.text with
  | .fn s => .ok s
  | .str s => .ok s
  | .absent =>
    match response.candidates with
    | some s => .ok s
    | none => .error .extractionFailed

/-! aiService.js — `parseJSONResponse` -/

/-- Model of the second replace in the fence-stripping chain,
`.replace(/\s*```$/, '')`: if the trimmed text ends in a closing fence, drop
the fence and the whitespace before it. -/
def stripTrailingFence (cs : List Char) : List Char :=
  if chEndsWith cs "```".data then
    ((cs.reverse.drop 3) |> chDropWs).reverse
  else cs

/-- Model of the cleaning step of `AIService.parseJSONResponse`: trim, then
strip markdown code-fence formatting - but only when the leading fence is bare
(` ``` `) or carries exactly the `json` tag (` ```json `). -/
def cleanResponseText (text : String) : String :=
  let cleanText := chTrim text.data
  if chStartsWith cleanText "```json".data then
    String.mk (stripTrailingFence (chDropWs (cleanText.drop 7)))
  else if chStartsWith cleanText "```".data then
    String.mk (stripTrailingFence (chDropWs (cleanText.drop 3)))
  else
    String.mk cleanText

/-- Model of `AIService.parseJSONResponse`: clean the raw response text and
`JSON.parse` it; a parse failure is rethrown as the structural error
`AI returned invalid JSON format`. -/
def parseJSONResponse (text : String) : Except AIError Json :=
  match jsonParse (cleanResponseText text) with
  | some j => .ok j
  | none => .error .invalidJson

/-- Modelled from the spec: the cleaning step as section 4.3 words it - strip
whitespace and a single pair of surrounding code-fence markers if present,
where the fence "may or may not carry a language tag" (any alphanumeric tag).
Used only to compare the claimed behaviour with `cleanResponseText`. -/
def specStripFences (text : String) : String :=
  let cleanText := chTrim text.data
  if chStartsWith cleanText "```".data then
    String.mk (stripTrailingFence (chDropWs ((cleanText.drop 3).dropWhile Char.isAlphanum)))
  else
    String.mk cleanText

/-! aiService.js — `validateLessonStructure` -/

/-- The recognized content-block kinds (`validTypes` in
`validateLessonStructure`). -/
def validTypes : List String :=
  ["heading", "paragraph", "code", "list", "video", "mcq", "image"]

/-- The `lessonData.content.forEach(...)` loop: each block must have a truthy
`type` and that type must be one of the recognized kinds; the first offending
block throws. -/
def validateBlocks : List Json → Nat → Except AIError Unit
  | [], _ => .ok ()
  | block :: rest, index =>
    if ¬ jsFieldTruthy block "type" then
      .error (.blockMissingType index)
    else
      match jsGet block "type" with
      | some (.str s) =>
        if validTypes.contains s then validateBlocks rest (index + 1)
        else .error (.invalidBlockType (.str s))
      | some v => .error (.invalidBlockType v)
      | none => .error (.blockMissingType index)

/-- Model of `AIService.validateLessonStructure` on the parsed lesson value:
required fields `title` and `content` must be truthy, `content` must be a
non-empty array, and every content block must carry a recognized kind. -/
def validateLessonStructure (lessonData : Json) : Except AIError Unit :=
  let required := ["title", "content"]
  let missing := required.filter (fun field => ¬ jsFieldTruthy lessonData field)
  if missing ≠ [] then .error (.lessonMissingFields missing)
  else
    match jsGet lessonData "content" with
    | some (.arr blocks) =>
      if blocks.length = 0 then .error .lessonNoContent
      else validateBlocks blocks 0
    | _ => .error .lessonNoContent

/-! aiService.js — `generateCourseSuggestions` -/

/-- Model of `AIService.generateCourseSuggestions`: the outcome of the external
call is passed in (`.error` for a rejected call).  The catch-all returns `[]`
on any failure; a successfully parsed response is returned as is, with no
validation of its shape. -/
def generateCourseSuggestions (call : Except String Envelope) : Json :=
  match call with
  | .error _ => .arr []
  | .ok response =>
    match extractText response with
    | .error _ => .arr []
    | .ok text =>
      match parseJSONResponse text with
      | .error _ => .arr []
      | .ok j => j

/-- Modelled from the spec (section 4.6): a valid suggestions payload is a JSON
array of 1-5 non-empty strings.  Used only to state what the claim says the
operation returns. -/
def isValidSuggestions : Json → Bool
  | .arr xs =>
    decide (1 ≤ xs.length) && decide (xs.length ≤ 5) &&
      xs.all (fun x => match x with | .str s => s ≠ "" | _ => false)
  | _ => false

/-! models/Lesson.js — content blocks and the readingTime pre-save hook

Persisted content blocks are modelled as a closed tagged variant over the
seven recognized kinds; only the fields the verified code paths read are
carried. -/

inductive Block where
  | heading (text : String) (level : Nat) : Block
  | paragraph (text : String) : Block
  | code (language : String) (text : String) : Block
  | list (style : String) (items : List String) : Block
  | video (query : String) : Block
  | mcq (question : String) (options : List String) (answer : Nat) (explanation : String) : Block
  | image (url : String) : Block
deriving DecidableEq

/-- Word contribution of one block in the `lessonSchema.pre('save')` hook:
paragraph and heading text, mcq question and options, and list items are
counted with `split(/\s+/).length`; other kinds contribute nothing. -/
def blockWords : Block → Nat
  | .paragraph text => jsWordCount text
  | .heading text _ => jsWordCount text
  | .mcq question options _ _ =>
    jsWordCount question + (options.map jsWordCount).sum
  | .list _ items => (items.map jsWordCount).sum
  | _ => 0

/-- Total word count of a lesson's content, as the pre-save hook computes it. -/
def contentWordCount (content : List Block) : Nat :=
  (content.map blockWords).sum

/-- The hook's `Math.max(1, Math.ceil(wordCount / 200))` in Nat arithmetic. -/
def computeReadingTime (content : List Block) : Nat :=
  max 1 ((contentWordCount content + 199) / 200)

/-- Persisted Lesson document (the fields the verified code paths touch).
`module` is the owning module's identifier. -/
structure PLesson where
  id : Nat
  title : String
  content : List Block
  objectives : List String
  module : Nat
  order : Nat
  isEnriched : Bool
  estimatedMinutes : Option Nat
  tags : List String
  readingTime : Option Nat
deriving DecidableEq

/-- Model of `lesson.save()`: the pre-save hook recomputes `readingTime` when
the document's `content` path is modified (`this.isModified('content')`); the
flag records whether the caller assigned `content` before saving. -/
def saveLessonDoc (contentModified : Bool) (lesson : PLesson) : PLesson :=
  if contentModified then
    { lesson with readingTime := some (computeReadingTime lesson.content) }
  else lesson

/-- Persisted Module document. -/
structure PModule where
  id : Nat
  title : String
  description : String
  course : Nat
  order : Nat
  objectives : List String
  lessons : List Nat
deriving DecidableEq

/-- Persisted Course document. -/
structure PCourse where
  id : Nat
  title : String
  description : String
  creator : String
  tags : List String
  difficulty : String
  estimatedHours : Nat
  modules : List Nat
deriving DecidableEq

/-- The persistence store: the saved Course/Module/Lesson documents plus a
counter from which fresh identifiers are drawn (modelling ObjectId
generation). -/
structure Store where
  courses : List PCourse
  modules : List PModule
  lessons : List PLesson
  nextId : Nat
deriving DecidableEq

def emptyStore : Store := ⟨[], [], [], 0⟩

/-! courseController.js — `generateCourse` (content hierarchy builder)

The AI-produced course outline, as the controller reads it after
`aiService.generateCourse` resolves.  Fields the outline may omit are Options;
numeric fields the code guards with `|| default` are Option Nat so that the JS
falsy behaviour of 0 is representable. -/

structure LessonStubData where
  title : String
  order : Option Nat
deriving DecidableEq

structure ModuleData where
  title : String
  description : Option String
  order : Option Nat
  objectives : Option (List String)
  lessons : List LessonStubData
deriving DecidableEq

structure CourseData where
  title : String
  description : String
  difficulty : Option String
  estimatedHours : Option Nat
  tags : Option (List String)
  modules : List ModuleData
deriving DecidableEq

/-- JS `x || d` for an optional number: 0 and `undefined` are falsy. -/
def jsOrNat (o : Option Nat) (dflt : Nat) : Nat :=
  match o with
  | some (n + 1) => n + 1
  | _ => dflt

/-- JS `x || d` for an optional string: the empty string and `undefined` are
falsy. -/
def jsOrStr (o : Option String) (dflt : String) : String :=
  match o with
  | some s => if s = "" then dflt else s
  | none => dflt

/-- The placeholder paragraph text of a freshly created lesson. -/
def placeholderText : String :=
  "Content will be generated when you first view this lesson."

/-- The `new Course({...})` construction in `generateCourse`. -/
def mkCourseDoc (courseData : CourseData) (user : String) (id : Nat) : PCourse :=
  { id := id
    title := courseData.title
    description := courseData.description
    creator := user
    tags := courseData.tags.getD []
    difficulty := jsOrStr courseData.difficulty "beginner"
    estimatedHours := jsOrNat courseData.estimatedHours 10
    modules := [] }

/-- The `new Module({...})` construction at loop index `i`. -/
def mkModuleDoc (moduleData : ModuleData) (cid i id : Nat) : PModule :=
  { id := id
    title := moduleData.title
    description := moduleData.description.getD ""
    course := cid
    order := jsOrNat moduleData.order i
    objectives := moduleData.objectives.getD []
    lessons := [] }

/-- The `new Lesson({...})` placeholder construction at inner loop index `j`,
followed by `lesson.save()` (which runs the readingTime hook on the new
document's content). -/
def mkLessonDoc (lessonData : LessonStubData) (mid j id : Nat) : PLesson :=
  saveLessonDoc true
    { id := id
      title := lessonData.title
      content := [Block.paragraph placeholderText]
      objectives := []
      module := mid
      order := jsOrNat lessonData.order j
      isEnriched := false
      estimatedMinutes := none
      tags := []
      readingTime := none }

/-- Persist a new course document, drawing a fresh identifier. -/
def storeAddCourse (c : PCourse) (st : Store) : Store :=
  { st with courses := st.courses ++ [c], nextId := st.nextId + 1 }

/-- Persist a new module document, drawing a fresh identifier. -/
def storeAddModule (m : PModule) (st : Store) : Store :=
  { st with modules := st.modules ++ [m], nextId := st.nextId + 1 }

/-- Persist a new lesson document, drawing a fresh identifier. -/
def storeAddLesson (l : PLesson) (st : Store) : Store :=
  { st with lessons := st.lessons ++ [l], nextId := st.nextId + 1 }

/-- Model of `module.addLesson(lesson._id)`: push the lesson id onto the
module document (if not already present) and save it. -/
def storePushLesson (mid lid : Nat) (st : Store) : Store :=
  { st with
    modules := st.modules.map (fun pm =>
      if pm.id = mid then
        (if pm.lessons.contains lid then pm else { pm with lessons := pm.lessons ++ [lid] })
      else pm) }

/-- Model of `course.addModule(module._id)`. -/
def storePushModule (cid mid : Nat) (st : Store) : Store :=
  { st with
    courses := st.courses.map (fun pc =>
      if pc.id = cid then
        (if pc.modules.contains mid then pc else { pc with modules := pc.modules ++ [mid] })
      else pc) }

/-- State of a run of `generateCourse`: the store plus a count of the persist
operations performed so far, against which a fault can be injected. -/
structure BuildSt where
  store : Store
  counter : Nat
deriving DecidableEq

/-- One awaited persistence operation.  `failAt = some k` makes the k-th
operation of the request reject (modelling a store failure); the thrown error
carries the store as it stands, with all earlier writes persisted. -/
def persistOp (failAt : Option Nat) (f : Store → Store) (bs : BuildSt) : Except Store BuildSt :=
  if failAt = some bs.counter then .error bs.store
  else .ok ⟨f bs.store, bs.counter + 1⟩

/-- The inner `for` loop of `generateCourse`: create a placeholder lesson for
each stub and link it to its module. -/
def buildLessons (failAt : Option Nat) (mid : Nat) :
    List LessonStubData → Nat → BuildSt → Except Store BuildSt
  | [], _, bs => .ok bs
  | stub :: rest, j, bs =>
    let lid := bs.store.nextId
    match persistOp failAt (storeAddLesson (mkLessonDoc stub mid j lid)) bs with
    | .error st => .error st
    | .ok bs1 =>
      match persistOp failAt (storePushLesson mid lid) bs1 with
      | .error st => .error st
      | .ok bs2 => buildLessons failAt mid rest (j + 1) bs2

/-- The outer `for` loop of `generateCourse`: create each module, its lessons,
and link the module to the course. -/
def buildModules (failAt : Option Nat) (cid : Nat) :
    List ModuleData → Nat → BuildSt → Except Store BuildSt
  | [], _, bs => .ok bs
  | moduleData :: rest, i, bs =>
    let mid := bs.store.nextId
    match persistOp failAt (storeAddModule (mkModuleDoc moduleData cid i mid)) bs with
    | .error st => .error st
    | .ok bs1 =>
      match buildLessons failAt mid moduleData.lessons 0 bs1 with
      | .error st => .error st
      | .ok bs2 =>
        match persistOp failAt (storePushModule cid mid) bs2 with
        | .error st => .error st
        | .ok bs3 => buildModules failAt cid rest (i + 1) bs3

/-- Model of the `generateCourse` controller.  `aiResult` is the outcome of
`await aiService.generateCourse(topic.trim())`; a rejected call propagates
through `asyncHandler` before anything is persisted.  The returned Bool is
whether the request succeeded (a 201 response). -/
def runGenerateCourse (user topic : String) (aiResult : Except String CourseData)
    (failAt : Option Nat) (st : Store) : Store × Bool :=
  if chTrim topic.data = [] then (st, false)
  else
    match aiResult with
    | .error _ => (st, false)
    | .ok courseData =>
      let cid := st.nextId
      match persistOp failAt (storeAddCourse (mkCourseDoc courseData user cid)) ⟨st, 0⟩ with
      | .error stErr => (stErr, false)
      | .ok bs1 =>
        match buildModules failAt cid courseData.modules 0 bs1 with
        | .error stErr => (stErr, false)
        | .ok bs2 => (bs2.store, true)

/-- Mirror of `aiService.validateCourseStructure` on the typed outline view:
truthy title and description, a non-empty module list, and each module with a
truthy title and a non-empty lesson list. -/
def validatedCourseData (d : CourseData) : Prop :=
  d.title ≠ "" ∧ d.description ≠ "" ∧ d.modules ≠ [] ∧
    ∀ m ∈ d.modules, m.title ≠ "" ∧ m.lessons ≠ []

/-! lessonController.js — `getLesson` (lazy enrichment) and `updateLesson` -/

/-- The validated lesson body `aiService.generateLesson` resolves with, as the
controller reads it. -/
structure GenLesson where
  content : List Block
  objectives : Option (List String)
  estimatedMinutes : Option Nat
deriving DecidableEq

/-- The enrichment commit in `getLesson`: assign the generated content,
objectives (`|| []`), estimatedMinutes (`|| 15`), set `isEnriched`, and save
(running the readingTime hook, since `content` was assigned). -/
def commitEnrichment (lesson : PLesson) (lessonData : GenLesson) : PLesson :=
  saveLessonDoc true
    { lesson with
      content := lessonData.content
      objectives := lessonData.objectives.getD []
      estimatedMinutes := some (jsOrNat lessonData.estimatedMinutes 15)
      isEnriched := true }

/-- An HTTP response of the lesson controller, as far as the claims inspect
it: status code, the `success` flag, the `error` member if any, and the lesson
payload if any. -/
structure LessonResponse where
  status : Nat
  success : Bool
  error : Option String
  data : Option PLesson
deriving DecidableEq

/-- Model of the `getLesson` controller for one request in isolation.
`db` is the lookup result, `creator` the owning course's creator (via the
populate chain `lesson.module.course.creator`), `user` the caller, and
`genResult` the outcome of `await aiService.generateLesson(...)`.  Returns the
lesson's persisted state after the request together with the response. -/
def getLesson (db : Option PLesson) (creator user : String)
    (genResult : Except AIError GenLesson) : Option PLesson × LessonResponse :=
  match db with
  | none => (none, ⟨404, false, some "Lesson not found", none⟩)
  | some lesson =>
    if creator ≠ user then
      (some lesson, ⟨403, false, some "Access denied", none⟩)
    else if lesson.isEnriched then
      (some lesson, ⟨200, true, none, some lesson⟩)
    else
      match genResult with
      | .ok lessonData =>
        let saved := commitEnrichment lesson lessonData
        (some saved, ⟨200, true, none, some saved⟩)
      | .error _ =>
        -- catch block: "Continue with existing content if generation fails";
        -- nothing is saved and the ordinary success response is sent
        (some lesson, ⟨200, true, none, some lesson⟩)

/-- Request body of `PUT /api/lessons/:id` (absent members are `none`). -/
structure UpdateLessonBody where
  title : Option String
  content : Option (List Block)
  objectives : Option (List String)
  estimatedMinutes : Option Nat
  tags : Option (List String)
deriving DecidableEq

/-- The `updateData` assembly of `updateLesson` followed by
`Lesson.findByIdAndUpdate(id, updateData, ...)`: each truthy body member
overwrites the stored field (an empty-string title and a zero
estimatedMinutes are falsy and skipped; arrays are always truthy).
`findByIdAndUpdate` is a query-level update - the `pre('save')` hook does not
run, so `readingTime` is left as stored. -/
def applyUpdateData (lesson : PLesson) (body : UpdateLessonBody) : PLesson :=
  let l1 := match body.title with
    | some t => if t ≠ "" then { lesson with title := t } else lesson
    | none => lesson
  let l2 := match body.content with
    | some c => { l1 with content := c }
    | none => l1
  let l3 := match body.objectives with
    | some o => { l2 with objectives := o }
    | none => l2
  let l4 := match body.estimatedMinutes with
    | some m => if m ≠ 0 then { l3 with estimatedMinutes := some m } else l3
    | none => l3
  match body.tags with
  | some t => { l4 with tags := t }
  | none => l4

/-- Model of the `updateLesson` controller. -/
def updateLesson (db : Option PLesson) (creator user : String)
    (body : UpdateLessonBody) : Option PLesson × LessonResponse :=
  match db with
  | none => (none, ⟨404, false, some "Lesson not found", none⟩)
  | some lesson =>
    if creator ≠ user then
      (some lesson, ⟨403, false, some "Access denied", none⟩)
    else
      let updated := applyUpdateData lesson body
      (some updated, ⟨200, true, none, some updated⟩)

/-! Concurrent first reads of one placeholder lesson

Each `getLesson` request suspends at two external awaits: the initial
`findById` and the generation-plus-save.  A reader is therefore a two-phase
machine: phase one loads a snapshot of the lesson document; phase two, for an
un-enriched snapshot, performs the generation call and commits the result
(one atomic step, since the code between them touches no shared state).  The
code has no coordination between readers of the same lesson. -/

inductive RPhase where
  | start : RPhase
  | loaded (snapshot : PLesson) : RPhase
  | done (payload : Option PLesson) : RPhase
deriving DecidableEq

/-- One scheduler step of a single reader against the shared lesson document;
the Nat is the number of generation calls the step issues. -/
def readerStep (genResult : Except AIError GenLesson) (phase : RPhase)
    (db : PLesson) : RPhase × PLesson × Nat :=
  match phase with
  | .start => (.loaded db, db, 0)
  | .loaded snapshot =>
    if snapshot.isEnriched then (.done (some snapshot), db, 0)
    else
      match genResult with
      | .ok lessonData =>
        let saved := commitEnrichment snapshot lessonData
        (.done (some saved), saved, 1)
      | .error _ => (.done (some snapshot), db, 1)
  | .done payload => (.done payload, db, 0)

/-- Interleaved state of two concurrent `getLesson` requests for the same
lesson: each reader's phase, the shared persisted document, and the total
number of generation calls issued. -/
structure RaceState where
  a : RPhase
  b : RPhase
  db : PLesson
  calls : Nat
deriving DecidableEq

/-- Run the reader selected by the scheduler (`false` = A, `true` = B). -/
def raceStep (genA genB : Except AIError GenLesson) (rs : RaceState)
    (which : Bool) : RaceState :=
  if which then
    let s := readerStep genB rs.b rs.db
    { rs with b := s.1, db := s.2.1, calls := rs.calls + s.2.2 }
  else
    let s := readerStep genA rs.a rs.db
    { rs with a := s.1, db := s.2.1, calls := rs.calls + s.2.2 }

/-- Execute a schedule (a list of reader choices) from an initial state. -/
def runRace (genA genB : Except AIError GenLesson) (sched : List Bool)
    (rs : RaceState) : RaceState :=
  sched.foldl (raceStep genA genB) rs

/-! Sample data shared by several claims -/

def sampleLesson : PLesson := mkLessonDoc ⟨"Intro", none⟩ 1 0 2

def raceGenA : Except AIError GenLesson := .ok ⟨[.paragraph "Alpha content."], some ["a"], some 10⟩

def raceGenB : Except AIError GenLesson := .ok ⟨[.paragraph "Beta content."], some ["b"], some 12⟩

def raceInit : RaceState := ⟨.start, .start, sampleLesson, 0⟩

/-! C6 samples -/

def jsonFenceSample : String := "```json\n\x7b\"a\": 1\x7d\n```"

def bareFenceSample : String := "```\n[1, 2]\n```"

def jsFenceSample : String := "```js\n\x7b\"a\": 1\x7d\n```"

def malformedSample : String := "Sure! Here\x27s your course: ```json \x7binvalid\x7d```"

/-! C7 samples -/

def quizBlock : Json := .obj [("type", .str "quiz"), ("question", .str "Q")]

def paraBlock : Json := .obj [("type", .str "paragraph"), ("text", .str "hi")]

def headingBlock : Json := .obj [("type", .str "heading"), ("text", .str "Intro"), ("level", .num 2)]

def quizLesson1 : Json := .obj [("title", .str "T"), ("content", .arr [quizBlock])]

def quizLesson2 : Json := .obj [("title", .str "T"), ("content", .arr [paraBlock, quizBlock])]

def quizLesson3 : Json := .obj [("title", .str "T"), ("content", .arr [headingBlock, paraBlock, quizBlock])]

def goodLesson : Json := .obj [("title", .str "T"), ("content", .arr [paraBlock])]

/-! Characterization of a fault-free `generateCourse` run -/

/-- The scalar (never-updated) part of a module document; `addLesson` pushes
only onto `lessons`, so these fields are stable across a run. -/
structure ModScalar where
  id : Nat
  title : String
  description : String
  course : Nat
  order : Nat
  objectives : List String
deriving DecidableEq

def modScalar (pm : PModule) : ModScalar :=
  ⟨pm.id, pm.title, pm.description, pm.course, pm.order, pm.objectives⟩

/-- The scalar (never-updated) part of a course document. -/
structure CourseScalar where
  id : Nat
  title : String
  description : String
  creator : String
  tags : List String
  difficulty : String
  estimatedHours : Nat
deriving DecidableEq

def courseScalar (pc : PCourse) : CourseScalar :=
  ⟨pc.id, pc.title, pc.description, pc.creator, pc.tags, pc.difficulty, pc.estimatedHours⟩

/-- The lesson documents the inner loop persists for one module, with
consecutive identifiers starting at `id`. -/
def lessonsOf (mid : Nat) : List LessonStubData → Nat → Nat → List PLesson
  | [], _, _ => []
  | stub :: rest, j, id => mkLessonDoc stub mid j id :: lessonsOf mid rest (j + 1) (id + 1)

/-- Number of documents (module plus its lessons, per module) a run persists. -/
def entityCount : List ModuleData → Nat
  | [] => 0
  | m :: rest => 1 + m.lessons.length + entityCount rest

/-- All lesson documents persisted for a module list whose first module draws
identifier `id`. -/
def lessonsOfModules : List ModuleData → Nat → List PLesson
  | [], _ => []
  | m :: rest, id =>
    lessonsOf id m.lessons 0 (id + 1) ++ lessonsOfModules rest (id + 1 + m.lessons.length)

/-- The scalar parts of the module documents persisted for a module list. -/
def modScalarsOf (cid : Nat) : List ModuleData → Nat → Nat → List ModScalar
  | [], _, _ => []
  | m :: rest, i, id =>
    modScalar (mkModuleDoc m cid i id) :: modScalarsOf cid rest (i + 1) (id + 1 + m.lessons.length)

/-! Order-field characterization (C5) -/

def stubOrdersSpec : List LessonStubData → Nat → List Nat
  | [], _ => []
  | s :: rest, j => jsOrNat s.order j :: stubOrdersSpec rest (j + 1)

def lessonOrdersSpec : List ModuleData → List Nat
  | [] => []
  | m :: rest => stubOrdersSpec m.lessons 0 ++ lessonOrdersSpec rest

def moduleOrdersSpec : List ModuleData → Nat → List Nat
  | [], _ => []
  | m :: rest, i => jsOrNat m.order i :: moduleOrdersSpec rest (i + 1)

/-! C10 -/

/-- Modelled from the claim: the persisted estimatedHours is the outline value
when nonzero and 10 when the outline omits it or supplies 0. -/
def specEstimatedHours (o : Option Nat) : Nat :=
  match o with
  | none => 10
  | some 0 => 10
  | some (n + 1) => n + 1

/-! C3 sample data and theorems -/

def c3Data : CourseData := ⟨"T", "D", none, none, none, [⟨"M", none, none, none, [⟨"L", none⟩]⟩]⟩

/-! C5 counterexample data -/

def c5Data : CourseData := ⟨"T", "D", none, none, none,
  [⟨"M0", none, some 1, none, [⟨"L", none⟩]⟩, ⟨"M1", none, some 0, none, [⟨"L", none⟩]⟩]⟩

/-! Witness data -/

def sampleCourseData : CourseData :=
  ⟨"Linear Algebra", "Vectors and matrices", some "beginner", some 12, some ["math"],
    [⟨"Vectors", some "intro", some 0, some ["understand vectors"],
        [⟨"What is a vector", some 0⟩, ⟨"Vector addition", some 1⟩]⟩,
     ⟨"Matrices", none, none, none, [⟨"Matrix basics", none⟩]⟩]⟩

def c10Data : CourseData := ⟨"T", "D", none, some 0, none, [⟨"M", none, none, none, [⟨"L", none⟩]⟩]⟩

def repWords : Nat → List Char
  | 0 => ['w']
  | n + 1 => 'w' :: ' ' :: repWords n

/-- A 201-word paragraph text (readingTime formula yields 2). -/
def longText : String := String.mk (repWords 200)

set_option maxRecDepth 40000 in
def enrichedLong : PLesson :=
  commitEnrichment sampleLesson ⟨[.paragraph longText], some [], some 10⟩

def updateBody8 : UpdateLessonBody := ⟨none, some [.paragraph "short words"], none, none, none⟩

/-! Helper lemmas -/

lemma validateBlocks_ok (blocks : List Json) :
    ∀ k, validateBlocks blocks k = .ok () →
      ∀ b ∈ blocks, ∃ s, jsGet b "type" = some (.str s) ∧ validTypes.contains s = true := by
  induction blocks with
  | nil => intro k _ b hb; cases hb
  | cons blk rest ih =>
    intro k h b hb
    unfold validateBlocks at h
    split at h
    · cases h
    · rcases hget : jsGet blk "type" with _ | v
      · rw [hget] at h
        simp only [] at h
        cases h
      · cases v with
        | str s =>
          rw [hget] at h
          simp only [] at h
          split at h
          · cases hb with
            | head => exact ⟨s, hget, by assumption⟩
            | tail _ hb2 => exact ih _ h b hb2
          · cases h
        | null => rw [hget] at h; simp only [] at h; cases h
        | bool b2 => rw [hget] at h; simp only [] at h; cases h
        | num n => rw [hget] at h; simp only [] at h; cases h
        | arr xs => rw [hget] at h; simp only [] at h; cases h
        | obj fs => rw [hget] at h; simp only [] at h; cases h

lemma persistOp_none (f : Store → Store) (bs : BuildSt) :
    persistOp none f bs = .ok ⟨f bs.store, bs.counter + 1⟩ := by
  simp [persistOp]

lemma modScalar_push_eq (mid lid : Nat) (pm : PModule) :
    modScalar (if pm.id = mid then
        (if pm.lessons.contains lid then pm else { pm with lessons := pm.lessons ++ [lid] })
      else pm) = modScalar pm := by
  by_cases h1 : pm.id = mid
  · rw [if_pos h1]
    by_cases h2 : pm.lessons.contains lid
    · rw [if_pos h2]
    · rw [if_neg h2]
      rfl
  · rw [if_neg h1]

lemma map_modScalar_push (mid lid : Nat) (ms : List PModule) :
    (ms.map (fun pm =>
      if pm.id = mid then
        (if pm.lessons.contains lid then pm else { pm with lessons := pm.lessons ++ [lid] })
      else pm)).map modScalar = ms.map modScalar := by
  induction ms with
  | nil => rfl
  | cons m t ih => simp only [List.map_cons, ih, modScalar_push_eq]

lemma courseScalar_push_eq (cid mid : Nat) (pc : PCourse) :
    courseScalar (if pc.id = cid then
        (if pc.modules.contains mid then pc else { pc with modules := pc.modules ++ [mid] })
      else pc) = courseScalar pc := by
  by_cases h1 : pc.id = cid
  · rw [if_pos h1]
    by_cases h2 : pc.modules.contains mid
    · rw [if_pos h2]
    · rw [if_neg h2]
      rfl
  · rw [if_neg h1]

lemma map_courseScalar_push (cid mid : Nat) (cs : List PCourse) :
    (cs.map (fun pc =>
      if pc.id = cid then
        (if pc.modules.contains mid then pc else { pc with modules := pc.modules ++ [mid] })
      else pc)).map courseScalar = cs.map courseScalar := by
  induction cs with
  | nil => rfl
  | cons c t ih => simp only [List.map_cons, ih, courseScalar_push_eq]

lemma buildLessons_none (mid : Nat) (stubs : List LessonStubData) :
    ∀ (j : Nat) (bs : BuildSt), ∃ bs2, buildLessons none mid stubs j bs = .ok bs2 ∧
      bs2.store.courses = bs.store.courses ∧
      bs2.store.lessons = bs.store.lessons ++ lessonsOf mid stubs j bs.store.nextId ∧
      bs2.store.modules.map modScalar = bs.store.modules.map modScalar ∧
      bs2.store.nextId = bs.store.nextId + stubs.length := by
  induction stubs with
  | nil => exact fun j bs => ⟨bs, rfl, rfl, by simp [lessonsOf], rfl, rfl⟩
  | cons stub rest ih =>
    intro j bs
    obtain ⟨bs2, h1, hc, hl, hm, hn⟩ := ih (j + 1)
      ⟨storePushLesson mid bs.store.nextId
        (storeAddLesson (mkLessonDoc stub mid j bs.store.nextId) bs.store), bs.counter + 1 + 1⟩
    simp only [storePushLesson, storeAddLesson] at hc hl hm hn
    refine ⟨bs2, ?_, ?_, ?_, ?_, ?_⟩
    · simp only [buildLessons, persistOp_none]
      exact h1
    · exact hc
    · rw [hl, List.append_assoc]
      rfl
    · rw [hm]
      exact map_modScalar_push mid bs.store.nextId bs.store.modules
    · rw [hn]
      simp only [List.length_cons]
      omega

lemma buildModules_none (cid : Nat) (mods : List ModuleData) :
    ∀ (i : Nat) (bs : BuildSt), ∃ bs2, buildModules none cid mods i bs = .ok bs2 ∧
      bs2.store.courses.map courseScalar = bs.store.courses.map courseScalar ∧
      bs2.store.lessons = bs.store.lessons ++ lessonsOfModules mods bs.store.nextId ∧
      bs2.store.modules.map modScalar =
        bs.store.modules.map modScalar ++ modScalarsOf cid mods i bs.store.nextId ∧
      bs2.store.nextId = bs.store.nextId + entityCount mods := by
  induction mods with
  | nil =>
    exact fun i bs =>
      ⟨bs, rfl, rfl, by simp [lessonsOfModules], by simp [modScalarsOf], by simp [entityCount]⟩
  | cons m rest ih =>
    intro i bs
    obtain ⟨bsL, hL, hLc, hLl, hLm, hLn⟩ :=
      buildLessons_none bs.store.nextId m.lessons 0
        ⟨storeAddModule (mkModuleDoc m cid i bs.store.nextId) bs.store, bs.counter + 1⟩
    obtain ⟨bs2, h1, hc, hl, hm, hn⟩ := ih (i + 1)
      ⟨storePushModule cid bs.store.nextId bsL.store, bsL.counter + 1⟩
    simp only [storeAddModule] at hLc hLl hLm hLn
    simp only [storePushModule] at hc hl hm hn
    refine ⟨bs2, ?_, ?_, ?_, ?_, ?_⟩
    · simp only [buildModules, persistOp_none, hL]
      exact h1
    · rw [hc, map_courseScalar_push cid bs.store.nextId bsL.store.courses, hLc]
    · rw [hl, hLl, hLn, List.append_assoc]
      rfl
    · rw [hm, hLm, hLn, List.map_append, List.append_assoc]
      rfl
    · rw [hn, hLn]
      simp only [entityCount]
      omega

lemma runGenerateCourse_none (user topic : String) (d : CourseData) (st : Store)
    (ht : chTrim topic.data ≠ []) :
    ∃ stf, runGenerateCourse user topic (.ok d) none st = (stf, true) ∧
      stf.courses.map courseScalar =
        st.courses.map courseScalar ++ [courseScalar (mkCourseDoc d user st.nextId)] ∧
      stf.lessons = st.lessons ++ lessonsOfModules d.modules (st.nextId + 1) ∧
      stf.modules.map modScalar =
        st.modules.map modScalar ++ modScalarsOf st.nextId d.modules 0 (st.nextId + 1) ∧
      stf.nextId = st.nextId + 1 + entityCount d.modules := by
  obtain ⟨bs2, h1, hc, hl, hm, hn⟩ :=
    buildModules_none st.nextId d.modules 0
      ⟨storeAddCourse (mkCourseDoc d user st.nextId) st, 1⟩
  simp only [storeAddCourse] at hc hl hm hn
  refine ⟨bs2.store, ?_, ?_, hl, hm, ?_⟩
  · unfold runGenerateCourse
    rw [if_neg ht]
    simp only [persistOp_none, h1]
  · rw [hc, List.map_append]
    rfl
  · rw [hn]

lemma lessonsOf_length (mid : Nat) (stubs : List LessonStubData) :
    ∀ j id, (lessonsOf mid stubs j id).length = stubs.length := by
  induction stubs with
  | nil => intro j id; rfl
  | cons s rest ih => intro j id; simp [lessonsOf, ih]

lemma lessonsOfModules_length (mods : List ModuleData) :
    ∀ id, (lessonsOfModules mods id).length = (mods.map (fun m => m.lessons.length)).sum := by
  induction mods with
  | nil => intro id; rfl
  | cons m rest ih => intro id; simp [lessonsOfModules, lessonsOf_length, ih]

lemma modScalarsOf_length (cid : Nat) (mods : List ModuleData) :
    ∀ i id, (modScalarsOf cid mods i id).length = mods.length := by
  induction mods with
  | nil => intro i id; rfl
  | cons m rest ih => intro i id; simp [modScalarsOf, ih]

lemma lessonsOf_placeholder (mid : Nat) (stubs : List LessonStubData) :
    ∀ j id l, l ∈ lessonsOf mid stubs j id →
      l.isEnriched = false ∧ l.content = [Block.paragraph placeholderText] := by
  induction stubs with
  | nil => intro j id l hl; cases hl
  | cons s rest ih =>
    intro j id l hl
    cases hl with
    | head => exact ⟨rfl, rfl⟩
    | tail _ hl2 => exact ih (j + 1) (id + 1) l hl2

lemma lessonsOfModules_placeholder (mods : List ModuleData) :
    ∀ id l, l ∈ lessonsOfModules mods id →
      l.isEnriched = false ∧ l.content = [Block.paragraph placeholderText] := by
  induction mods with
  | nil => intro id l hl; cases hl
  | cons m rest ih =>
    intro id l hl
    rcases List.mem_append.mp hl with h | h
    · exact lessonsOf_placeholder id m.lessons 0 (id + 1) l h
    · exact ih (id + 1 + m.lessons.length) l h

lemma lessonsOf_orders (mid : Nat) (stubs : List LessonStubData) :
    ∀ j id, (lessonsOf mid stubs j id).map PLesson.order = stubOrdersSpec stubs j := by
  induction stubs with
  | nil => intro j id; rfl
  | cons s rest ih =>
    intro j id
    simp only [lessonsOf, List.map_cons, ih, stubOrdersSpec]
    rfl

lemma lessonsOfModules_orders (mods : List ModuleData) :
    ∀ id, (lessonsOfModules mods id).map PLesson.order = lessonOrdersSpec mods := by
  induction mods with
  | nil => intro id; rfl
  | cons m rest ih =>
    intro id
    simp only [lessonsOfModules, List.map_append, lessonsOf_orders, ih, lessonOrdersSpec]

lemma modScalarsOf_orders (cid : Nat) (mods : List ModuleData) :
    ∀ i id, (modScalarsOf cid mods i id).map ModScalar.order = moduleOrdersSpec mods i := by
  induction mods with
  | nil => intro i id; rfl
  | cons m rest ih =>
    intro i id
    simp only [modScalarsOf, List.map_cons, ih, moduleOrdersSpec]
    rfl

/-! C8 — readingTime recomputation -/

lemma natCeil_div_200 (w : Nat) : ⌈(w : ℚ) / 200⌉₊ = (w + 199) / 200 := by
  rcases Nat.eq_zero_or_pos w with hw | hw
  · subst hw
    norm_num
  · have hn : (w + 199) / 200 ≠ 0 := by omega
    rw [Nat.ceil_eq_iff hn]
    have h200 : (0:ℚ) < 200 := by norm_num
    constructor
    · rw [lt_div_iff₀ h200]
      have hlt : ((w + 199) / 200 - 1) * 200 < w := by omega
      exact_mod_cast hlt
    · rw [div_le_iff₀ h200]
      have hle : w ≤ ((w + 199) / 200) * 200 := by omega
      exact_mod_cast hle

/-! Claim theorems -/

/-- C1: the claim states that at most one generation call is in flight per
lesson identifier and that N concurrent first reads of a placeholder lesson
trigger exactly one generation call, with every caller observing the same
final content.  The code has no single-flight guard (no coordination exists
between two `getLesson` requests), so under the interleaving
load-A, load-B, generate-and-commit-A, generate-and-commit-B both readers see
`isEnriched = false` and each issues its own generation call: two calls are
made, the two callers observe different content, and the second commit
overwrites the first.  A fully sequential schedule of the same two requests
issues exactly one call, showing the divergence is the race itself. -/
theorem c1_no_single_flight_guard :
    (runRace raceGenA raceGenB [false, true, false, true] raceInit).calls = 2 ∧
    (runRace raceGenA raceGenB [false, true, false, true] raceInit).a =
      .done (some (commitEnrichment sampleLesson ⟨[.paragraph "Alpha content."], some ["a"], some 10⟩)) ∧
    (runRace raceGenA raceGenB [false, true, false, true] raceInit).b =
      .done (some (commitEnrichment sampleLesson ⟨[.paragraph "Beta content."], some ["b"], some 12⟩)) ∧
    (runRace raceGenA raceGenB [false, true, false, true] raceInit).a ≠
      (runRace raceGenA raceGenB [false, true, false, true] raceInit).b ∧
    (runRace raceGenA raceGenB [false, false, true, true] raceInit).calls = 1 := by
  refine ⟨rfl, rfl, rfl, ?_, rfl⟩
  decide

/-- C2 counterexample: when generation fails on the first read of a
placeholder lesson, the persisted lesson is indeed left untouched, but the
response is an ordinary success (`success = true`, no `error` member, status
200) carrying the placeholder - the claim that the caller receives the
placeholder "along with a surfaced error" is false: the catch block swallows
the error. -/
theorem c2_counterexample :
    getLesson (some sampleLesson) "creator" "creator" (.error (.transport "network timeout")) =
      (some sampleLesson, ⟨200, true, none, some sampleLesson⟩) ∧
    sampleLesson.isEnriched = false :=
  ⟨rfl, rfl⟩

/-- C2 (amended): for every read of a placeholder lesson whose generation
attempt fails, the lesson's persisted state is unchanged - the placeholder
content remains intact and `isEnriched` stays false, so the lesson is
retryable on the next read - and the caller receives the existing placeholder
content in an ordinary success response, with no surfaced error. -/
theorem c2_amended (lesson : PLesson) (user : String) (e : AIError)
    (h : lesson.isEnriched = false) :
    getLesson (some lesson) user user (.error e) =
      (some lesson, ⟨200, true, none, some lesson⟩) := by
  simp [getLesson, h]

/-- C2 witness: `c2_amended` applied to a concrete placeholder lesson and a
concrete transport error. -/
theorem c2_witness :
    getLesson (some sampleLesson) "u" "u" (.error (.transport "boom")) =
      (some sampleLesson, ⟨200, true, none, some sampleLesson⟩) :=
  c2_amended sampleLesson "u" (.transport "boom") rfl

/-- C3 counterexample: with a one-module one-lesson outline, injecting a
failure at the third persistence operation (the lesson save) aborts the
request, yet the already-saved Course and Module remain persisted - creation
is not all-or-none. -/
theorem c3_counterexample :
    (runGenerateCourse "u" "t" (.ok c3Data) (some 2) emptyStore).2 = false ∧
    (runGenerateCourse "u" "t" (.ok c3Data) (some 2) emptyStore).1.courses.length = 1 ∧
    (runGenerateCourse "u" "t" (.ok c3Data) (some 2) emptyStore).1.modules.length = 1 ∧
    (runGenerateCourse "u" "t" (.ok c3Data) (some 2) emptyStore).1.lessons.length = 0 :=
  ⟨rfl, rfl, rfl, rfl⟩

/-- C3 (amended): course creation is all-or-none only with respect to the
outline-generation step - if `aiService.generateCourse` rejects, no Course,
Module, or Lesson is persisted for the request; but when a persistence step
fails part-way (here, the module save), the entities saved before it (the
Course) remain persisted, with no rollback or compensating deletes. -/
theorem c3_amended_rollback :
    (∀ (user topic msg : String) (failAt : Option Nat) (st : Store),
        runGenerateCourse user topic (.error msg) failAt st = (st, false)) ∧
    (runGenerateCourse "u" "t" (.ok c3Data) (some 1) emptyStore).2 = false ∧
    (runGenerateCourse "u" "t" (.ok c3Data) (some 1) emptyStore).1.courses.length = 1 ∧
    (runGenerateCourse "u" "t" (.ok c3Data) (some 1) emptyStore).1.modules.length = 0 := by
  refine ⟨?_, rfl, rfl, rfl⟩
  intro user topic msg failAt st
  unfold runGenerateCourse
  split <;> rfl

/-- C4: for every valid CourseOutline with M modules and per-module lesson
stubs, a fault-free `generateCourse` run persists exactly M module documents
and sum-of-Li lesson documents, and every persisted lesson is created with
`isEnriched = false` and a single paragraph placeholder content block. -/
theorem c4_hierarchy_counts (d : CourseData) (user topic : String) (st : Store)
    (_hv : validatedCourseData d) (ht : chTrim topic.data ≠ []) :
    ∃ stf, runGenerateCourse user topic (.ok d) none st = (stf, true) ∧
      stf.modules.length = st.modules.length + d.modules.length ∧
      stf.lessons.length = st.lessons.length + (d.modules.map (fun m => m.lessons.length)).sum ∧
      ∀ l ∈ stf.lessons.drop st.lessons.length,
        l.isEnriched = false ∧ l.content = [Block.paragraph placeholderText] := by
  obtain ⟨stf, he, hcourse, hless, hmod, hn⟩ := runGenerateCourse_none user topic d st ht
  refine ⟨stf, he, ?_, ?_, ?_⟩
  · have h2 := congrArg List.length hmod
    simpa [modScalarsOf_length] using h2
  · rw [hless]
    simp [lessonsOfModules_length]
  · rw [hless, List.drop_left]
    exact fun l hl => lessonsOfModules_placeholder d.modules (st.nextId + 1) l hl

/-- C4 witness: `c4_hierarchy_counts` applied to a concrete validated
two-module outline from the empty store. -/
theorem c4_witness : ∃ stf,
    runGenerateCourse "creator" "Linear Algebra" (.ok sampleCourseData) none emptyStore = (stf, true) ∧
    stf.modules.length = emptyStore.modules.length + sampleCourseData.modules.length ∧
    stf.lessons.length =
      emptyStore.lessons.length + (sampleCourseData.modules.map (fun m => m.lessons.length)).sum ∧
    ∀ l ∈ stf.lessons.drop emptyStore.lessons.length,
      l.isEnriched = false ∧ l.content = [Block.paragraph placeholderText] :=
  c4_hierarchy_counts sampleCourseData "creator" "Linear Algebra" emptyStore (by unfold validatedCourseData; decide) (by decide)

/-- C5 counterexample: an outline whose second module supplies `order: 0` is
persisted with order 1 (its array position), because `moduleData.order || i`
treats the supplied 0 as falsy - supplied zero order values are not
honored. -/
theorem c5_counterexample :
    (runGenerateCourse "u" "t" (.ok c5Data) none emptyStore).1.modules.map PModule.order = [1, 1] ∧
    c5Data.modules.map ModuleData.order = [some 1, some 0] ∧
    (runGenerateCourse "u" "t" (.ok c5Data) none emptyStore).1.modules.map PModule.order ≠ [1, 0] := by
  refine ⟨rfl, rfl, ?_⟩
  decide

/-- C5 (amended): in a fault-free run the persisted order of every module and
lesson equals the outline-supplied order value when that value is present and
nonzero, and the element's zero-based position otherwise - a supplied order
of 0 is replaced by the position index, since the code's `|| position`
default treats 0 as absent. -/
theorem c5_amended_orders (d : CourseData) (user topic : String) (st : Store)
    (_hv : validatedCourseData d) (ht : chTrim topic.data ≠ []) :
    ∃ stf, runGenerateCourse user topic (.ok d) none st = (stf, true) ∧
      (stf.modules.map PModule.order).drop st.modules.length = moduleOrdersSpec d.modules 0 ∧
      (stf.lessons.map PLesson.order).drop st.lessons.length = lessonOrdersSpec d.modules := by
  obtain ⟨stf, he, hcourse, hless, hmod, hn⟩ := runGenerateCourse_none user topic d st ht
  refine ⟨stf, he, ?_, ?_⟩
  · have h2 : stf.modules.map PModule.order = (stf.modules.map modScalar).map ModScalar.order := by
      rw [List.map_map]
      rfl
    rw [h2, hmod, List.map_append, modScalarsOf_orders]
    have hlen : (List.map ModScalar.order (st.modules.map modScalar)).length = st.modules.length := by
      simp
    rw [← hlen, List.drop_left]
  · rw [hless, List.map_append, lessonsOfModules_orders]
    have hlen : (st.lessons.map PLesson.order).length = st.lessons.length := by simp
    rw [← hlen, List.drop_left]

/-- C5 witness: `c5_amended_orders` applied to a concrete validated outline
from the empty store. -/
theorem c5_witness : ∃ stf,
    runGenerateCourse "creator" "Linear Algebra" (.ok sampleCourseData) none emptyStore = (stf, true) ∧
    (stf.modules.map PModule.order).drop emptyStore.modules.length =
      moduleOrdersSpec sampleCourseData.modules 0 ∧
    (stf.lessons.map PLesson.order).drop emptyStore.lessons.length =
      lessonOrdersSpec sampleCourseData.modules :=
  c5_amended_orders sampleCourseData "creator" "Linear Algebra" emptyStore (by unfold validatedCourseData; decide) (by decide)

/-- C6 counterexample: a response fenced with a language tag other than
`json` (here ` ```js `) is not stripped - only the three backticks are
removed, leaving the tag in place - so the parse fails with
`AI returned invalid JSON format` even though the remainder inside the fence
is valid JSON, contrary to the claim's "with or without a language tag". -/
theorem c6_counterexample :
    parseJSONResponse jsFenceSample = .error .invalidJson ∧
    specStripFences jsFenceSample = "\x7b\"a\": 1\x7d" ∧
    jsonParse (specStripFences jsFenceSample) = some (.obj [("a", .num 1)]) :=
  ⟨rfl, rfl, rfl⟩

/-- C6 (amended): the parser trims whitespace and strips one pair of
surrounding code-fence markers when the fence is bare or carries exactly the
`json` tag (other language tags are not stripped and the parse then fails),
parses the remainder as JSON, fails with the malformed-response error on any
text whose cleaned remainder is not valid JSON (including the spec's
"Sure! ..." vector), and a failed generation call persists no Course, Module,
or Lesson. -/
theorem c6_amended :
    parseJSONResponse jsonFenceSample = .ok (.obj [("a", .num 1)]) ∧
    parseJSONResponse bareFenceSample = .ok (.arr [.num 1, .num 2]) ∧
    (∀ text : String, jsonParse (cleanResponseText text) = none →
        parseJSONResponse text = .error .invalidJson) ∧
    parseJSONResponse malformedSample = .error .invalidJson ∧
    (∀ (user topic msg : String) (failAt : Option Nat) (st : Store),
        runGenerateCourse user topic (.error msg) failAt st = (st, false)) := by
  refine ⟨rfl, rfl, ?_, rfl, ?_⟩
  · intro text h
    simp [parseJSONResponse, h]
  · intro user topic msg failAt st
    unfold runGenerateCourse
    split <;> rfl

/-- C6 witness: the malformed-remainder conjunct of `c6_amended` applied to a
concrete non-JSON text. -/
theorem c6_witness :
    parseJSONResponse "not json" = .error .invalidJson :=
  c6_amended.2.2.1 "not json" rfl

/-- C7 counterexample: two lessons whose unrecognized `quiz` block sits at
index 0 and index 1 respectively produce the identical error
`Invalid content block type: quiz` - the error names the offending kind but
carries no block index, contrary to the claim's "naming the offending
block's index and kind". -/
theorem c7_counterexample :
    validateLessonStructure quizLesson1 = .error (.invalidBlockType (.str "quiz")) ∧
    validateLessonStructure quizLesson2 = .error (.invalidBlockType (.str "quiz")) ∧
    validateLessonStructure quizLesson1 = validateLessonStructure quizLesson2 :=
  ⟨rfl, rfl, rfl⟩

/-- C7 (amended): validation accepts only lessons in which every content
block's type is one of the seven recognized kinds; a lesson containing an
unrecognized kind is rejected as a whole (no partial acceptance) with a
schema error naming the offending kind (not its index), and a rejected
generation leaves the placeholder lesson unchanged. -/
theorem c7_amended :
    (∀ (lessonData : Json) (blocks : List Json),
        validateLessonStructure lessonData = .ok () →
        jsGet lessonData "content" = some (.arr blocks) →
        ∀ b ∈ blocks, ∃ s, jsGet b "type" = some (.str s) ∧ validTypes.contains s = true) ∧
    validateLessonStructure quizLesson3 = .error (.invalidBlockType (.str "quiz")) ∧
    (∀ (l : PLesson) (user : String) (e : AIError), l.isEnriched = false →
        getLesson (some l) user user (.error e) = (some l, ⟨200, true, none, some l⟩)) := by
  refine ⟨?_, rfl, ?_⟩
  · intro lessonData blocks h hcontent
    unfold validateLessonStructure at h
    rw [hcontent] at h
    simp only [] at h
    split at h
    · cases h
    · split at h
      · cases h
      · exact validateBlocks_ok blocks 0 h
  · intro l user e h
    simp [getLesson, h]

/-- C7 witness: the acceptance direction of `c7_amended` applied to a
concrete valid lesson consisting of one paragraph block. -/
theorem c7_witness :
    ∃ s, jsGet paraBlock "type" = some (.str s) ∧ validTypes.contains s = true :=
  c7_amended.1 goodLesson [paraBlock] rfl rfl paraBlock (by simp)

set_option maxRecDepth 40000 in
/-- C8 counterexample: a lesson enriched with a 201-word paragraph has
`readingTime = 2`; replacing its content with a 2-word paragraph through the
lesson-update operation leaves `readingTime = 2`, while the claimed formula
over the new content yields 1 - `findByIdAndUpdate` bypasses the pre-save
hook, so readingTime is not recomputed on user updates. -/
theorem c8_counterexample :
    enrichedLong.readingTime = some 2 ∧
    (updateLesson (some enrichedLong) "u" "u" updateBody8).1 =
      some { enrichedLong with content := [Block.paragraph "short words"] } ∧
    computeReadingTime [Block.paragraph "short words"] = 1 ∧
    ({ enrichedLong with content := [Block.paragraph "short words"] } : PLesson).readingTime = some 2 :=
  ⟨rfl, rfl, rfl, rfl⟩

/-- C8 (amended): the enrichment commit saves through the document, so the
pre-save hook recomputes `readingTime = max(1, ceil(word count / 200))` over
the new content; but the lesson-update operation replaces content via
`findByIdAndUpdate`, which does not run the hook and leaves `readingTime`
exactly as stored. -/
theorem c8_amended :
    (∀ (lesson : PLesson) (user : String) (g : GenLesson), lesson.isEnriched = false →
        (getLesson (some lesson) user user (.ok g)).1 =
          some { lesson with
            content := g.content
            objectives := g.objectives.getD []
            estimatedMinutes := some (jsOrNat g.estimatedMinutes 15)
            isEnriched := true
            readingTime := some (max 1 ⌈(contentWordCount g.content : ℚ) / 200⌉₊) }) ∧
    (∀ (lesson : PLesson) (body : UpdateLessonBody),
        (applyUpdateData lesson body).readingTime = lesson.readingTime) := by
  constructor
  · intro l user g h
    simp [getLesson, h, commitEnrichment, saveLessonDoc, computeReadingTime, natCeil_div_200]
  · intro l body
    rcases body with ⟨t, c, o, m, tg⟩
    cases t <;> cases c <;> cases o <;> cases m <;> cases tg <;>
      simp [applyUpdateData, apply_ite PLesson.readingTime]

/-- C8 witness: the enrichment conjunct of `c8_amended` applied to a concrete
placeholder lesson and generated body. -/
theorem c8_witness :
    (getLesson (some sampleLesson) "u" "u"
        (.ok ⟨[Block.paragraph "hello world"], none, none⟩)).1 =
      some { sampleLesson with
        content := [Block.paragraph "hello world"]
        objectives := (none : Option (List String)).getD []
        estimatedMinutes := some (jsOrNat none 15)
        isEnriched := true
        readingTime :=
          some (max 1 ⌈(contentWordCount [Block.paragraph "hello world"] : ℚ) / 200⌉₊) } :=
  c8_amended.1 sampleLesson "u" ⟨[Block.paragraph "hello world"], none, none⟩ rfl

/-- C9 counterexample: a model response whose text parses to the JSON number
0 is returned as-is by the suggestions operation - the result is neither a
valid array of 1-5 non-empty suggestion strings nor the empty list, because
the code performs no validation of the parsed value. -/
theorem c9_counterexample :
    generateCourseSuggestions (.ok ⟨RespText.str "0", none⟩) = .num 0 ∧
    isValidSuggestions (.num 0) = false ∧
    Json.num 0 ≠ Json.arr [] :=
  ⟨rfl, rfl, fun h => Json.noConfusion h⟩

/-- C9 (amended): the topic-suggestions operation never raises: a rejected
call, a failed extraction, or a parse failure each degrade to the empty list,
and a successfully parsed response is returned exactly as parsed, with no
validation that it is an array of 1-5 non-empty strings. -/
theorem c9_amended :
    (∀ msg : String, generateCourseSuggestions (.error msg) = .arr []) ∧
    (∀ resp : Envelope, extractText resp = .error .extractionFailed →
        generateCourseSuggestions (.ok resp) = .arr []) ∧
    (∀ (resp : Envelope) (text : String), extractText resp = .ok text →
        (∀ e, parseJSONResponse text = .error e →
            generateCourseSuggestions (.ok resp) = .arr []) ∧
        (∀ j, parseJSONResponse text = .ok j →
            generateCourseSuggestions (.ok resp) = j)) := by
  refine ⟨fun _ => rfl, ?_, ?_⟩
  · intro resp h
    simp [generateCourseSuggestions, h]
  · intro resp text h
    constructor
    · intro e he
      simp [generateCourseSuggestions, h, he]
    · intro j hj
      simp [generateCourseSuggestions, h, hj]

/-- C9 witness: the parse-success conjunct of `c9_amended` applied to a
concrete envelope carrying a valid suggestions array. -/
theorem c9_witness :
    generateCourseSuggestions (.ok ⟨RespText.str "[\"algebra basics\"]", none⟩) =
      .arr [.str "algebra basics"] :=
  (c9_amended.2.2 ⟨RespText.str "[\"algebra basics\"]", none⟩ "[\"algebra basics\"]" rfl).2
    (.arr [.str "algebra basics"]) rfl

/-- C10: for every validated outline, the persisted Course's estimatedHours
equals the outline's value when it is nonzero and 10 when the outline omits
it or supplies 0, because `courseData.estimatedHours || 10` treats 0 as
falsy. -/
theorem c10_estimated_hours (d : CourseData) (user topic : String) (st : Store)
    (_hv : validatedCourseData d) (ht : chTrim topic.data ≠ []) :
    ∃ stf, runGenerateCourse user topic (.ok d) none st = (stf, true) ∧
      (stf.courses.map PCourse.estimatedHours).drop st.courses.length =
        [specEstimatedHours d.estimatedHours] := by
  obtain ⟨stf, he, hcourse, hless, hmod, hn⟩ := runGenerateCourse_none user topic d st ht
  refine ⟨stf, he, ?_⟩
  have h2 : stf.courses.map PCourse.estimatedHours =
      (stf.courses.map courseScalar).map CourseScalar.estimatedHours := by
    rw [List.map_map]
    rfl
  rw [h2, hcourse, List.map_append]
  have hlen : (List.map CourseScalar.estimatedHours (st.courses.map courseScalar)).length =
      st.courses.length := by simp
  rw [← hlen, List.drop_left]
  show [jsOrNat d.estimatedHours 10] = [specEstimatedHours d.estimatedHours]
  rcases d.estimatedHours with _ | (_ | k) <;> rfl

/-- C10 witness: `c10_estimated_hours` applied to a concrete outline with
`estimatedHours = 0`, persisted as 10. -/
theorem c10_witness : ∃ stf,
    runGenerateCourse "u" "Topology" (.ok c10Data) none emptyStore = (stf, true) ∧
    (stf.courses.map PCourse.estimatedHours).drop emptyStore.courses.length =
      [specEstimatedHours c10Data.estimatedHours] :=
  c10_estimated_hours c10Data "u" "Topology" emptyStore (by unfold validatedCourseData; decide) (by decide)
